import Mathlib

/-! Bazar backend: catalog browsing and the purchase transaction

A shallow embedding of `src/app.js`, an Express service over two MongoDB
collections (`productcs` and `sales`), and the properties of its four route
handlers.

Modelling conventions

* A collection is the list of its documents in the store's natural order;
  `findOne` returns and `updateOne` rewrites the first document that matches.
* `price`, `stock` and `total` are JavaScript numbers (IEEE 754 binary64),
  modelled by `JsNumber`: NaN, the two infinities, and the finite values
  `mant * 2 ^ exp`.  `roundDouble` is rounding to the nearest double, ties to
  even; the product `product.price * quantity`, the sum of `$inc` and the result
  of `parseInt` are rounded by it, and `product.stock < quantity` compares the
  exact values.  The two zeros are not told apart.
* `id`, `productId` and `quantity` are integers, as the data model and the
  contract `purchase(productId: integer, quantity: integer)` have them, modelled
  by `Int`.
* Every `await` on the store may reject.  Whether it does is read from the
  environment `Env` of the request; a rejected write leaves its collection as it
  was.  `new Date()` is the field `now` of the environment.
* `$regex` is interpreted for patterns made of literal characters and `.`;
  the store's answer for any other pattern is the field `pcre` of the environment.
  Under the option `i` two characters match when they have the same case fold:
  `Char.toLower` on ASCII, the field `unicodeFold` of the environment elsewhere.
* The query parameter `q` is absent or a text, and the path parameter `:id` is a
  text.  The `_id` fields that the store assigns are left out of the documents.
-/

namespace Bazar

/-! ## JavaScript numbers -/

/-- A JavaScript number: NaN, an infinity, or the finite value `mant * 2 ^ exp`. -/
inductive JsNumber where
  | nan
  | inf (negative : Bool)
  | fin (mant : Int) (exp : Int)
deriving DecidableEq

/-- The binary logarithm rounded down, computed with `fuel` halvings at most. -/
def log2Aux : Nat → Nat → Nat
  | 0, _ => 0
  | fuel + 1, n => if n < 2 then 0 else log2Aux fuel (n / 2) + 1

/-- The binary logarithm of a positive number, rounded down; 0 at 0. -/
def log2 (n : Nat) : Nat :=
  log2Aux n n

/-- The integer nearest to `num / den`, the even one of two equally near. -/
def roundHalfEven (num den : Nat) : Nat :=
  let q := num / den
  let r := num % den
  if 2 * r < den then q
  else if den < 2 * r then q + 1
  else if q % 2 = 0 then q else q + 1

/-- The number of magnitude `m * 2 ^ e` written with an odd mantissa (zero as
`fin 0 0`), so that equal numbers are equal terms. -/
def normal (negative : Bool) (m : Nat) (e : Int) : JsNumber :=
  if m = 0 then .fin 0 0
  else
    let low := Nat.gcd m (2 ^ log2 m)
    let mant : Int := (m / low : Nat)
    .fin (if negative then -mant else mant) (e + (log2 low : Int))

/-- The double nearest to `n * 2 ^ e`, ties to even: 53 significant bits, the
last place not below `2 ^ (-1074)`, and an infinity from `2 ^ 1024` on. -/
def roundDouble (n e : Int) : JsNumber :=
  let a := n.natAbs
  let t := max ((log2 a : Int) + e - 52) (-1074)
  let m := roundHalfEven a (2 ^ (t - e).toNat)
  if m ≠ 0 ∧ 1024 ≤ (log2 m : Int) + max t e then .inf (decide (n < 0))
  else normal (decide (n < 0)) m (max t e)

/-- The number that holds an integer. -/
def JsNumber.ofInt (n : Int) : JsNumber :=
  roundDouble n 0

/-- The product `x * q` of a number and an integer, as JavaScript computes it. -/
def JsNumber.mul : JsNumber → Int → JsNumber
  | .nan, _ => .nan
  | .inf negative, q => if q = 0 then .nan else .inf (xor negative (decide (q < 0)))
  | .fin mant exp, q => roundDouble (mant * q) exp

/-- The sum `x + d` of a number and an integer, as `$inc` computes it. -/
def JsNumber.add : JsNumber → Int → JsNumber
  | .nan, _ => .nan
  | .inf negative, _ => .inf negative
  | .fin mant exp, d =>
    if 0 ≤ exp then roundDouble (mant * 2 ^ exp.toNat + d) 0
    else roundDouble (mant + d * 2 ^ (-exp).toNat) exp

/-- The comparison `x < q` of a number with an integer, false at NaN. -/
def JsNumber.lt : JsNumber → Int → Bool
  | .nan, _ => false
  | .inf negative, _ => negative
  | .fin mant exp, q =>
    if 0 ≤ exp then decide (mant * 2 ^ exp.toNat < q)
    else decide (mant < q * 2 ^ (-exp).toNat)

/-- The comparison `x >= q` of a number with an integer, false at NaN. -/
def JsNumber.ge : JsNumber → Int → Bool
  | .nan, _ => false
  | .inf negative, _ => !negative
  | .fin mant exp, q =>
    if 0 ≤ exp then decide (q ≤ mant * 2 ^ exp.toNat)
    else decide (q * 2 ^ (-exp).toNat ≤ mant)

/-- The comparison `x >= 0` of JavaScript. -/
def JsNumber.nonneg : JsNumber → Bool
  | .nan => false
  | .inf negative => !negative
  | .fin mant _ => decide (0 ≤ mant)

/-- The exact value of a finite number. -/
def JsNumber.toRat? : JsNumber → Option ℚ
  | .fin mant exp => some ((mant : ℚ) * (2 : ℚ) ^ exp)
  | _ => none

/-- The integer that a number is equal to, if there is one. -/
def JsNumber.toInt? : JsNumber → Option Int
  | .fin mant exp =>
    if 0 ≤ exp then some (mant * 2 ^ exp.toNat)
    else if mant % 2 ^ (-exp).toNat = 0 then some (mant / 2 ^ (-exp).toNat)
    else none
  | _ => none

/-! ## Data model -/

/-- A document of the collection `productcs`. -/
structure Product where
  id : Int
  title : String
  price : JsNumber
  stock : JsNumber
deriving DecidableEq

/-- A document of the collection `sales`, as built in `app.post('/api/sales')`. -/
structure Sale where
  productId : Int
  quantity : Int
  date : Nat
  total : JsNumber
deriving DecidableEq

/-- The two collections of the database `Bazar`. -/
structure Db where
  productsCollection : List Product
  salesCollection : List Sale
deriving DecidableEq

/-- What a request reads from outside the two collections: the server clock,
whether each store call rejects, the store's case folding of the characters
outside ASCII, and the store's regular-expression engine on the patterns that
`compile` does not cover (`none`: the store rejects the pattern). -/
structure Env where
  now : Nat
  findThrows : Bool
  findOneThrows : Bool
  insertOneThrows : Bool
  updateOneThrows : Bool
  unicodeFold : Char → Char
  pcre : String → Option (String → Bool)

/-- The JSON bodies the handlers send. -/
inductive Body where
  | products (docs : List Product)
  | product (doc : Product)
  | sales (docs : List Sale)
  | message (message : String)
  | purchase (message : String) (sale : Sale)
  | failure (message : String)
deriving DecidableEq

/-- The result of `res.status(status).json(body)`. -/
structure Response where
  status : Nat
  body : Body
deriving DecidableEq

/-! ## Store operations -/

/-- The query `findOne({ id })`: the first document whose `id` equals the key.
A key that is no integer equals no `id`: the lookup route goes through
`JsNumber.toInt?`. -/
def findOne : List Product → Int → Option Product
  | [], _ => none
  | p :: ps, id => if p.id = id then some p else findOne ps id

/-- The update `updateOne({ id }, { $inc: { stock: inc } })`: the first document
whose `id` equals the key gets `inc` added to its `stock`; without a match the
collection is left as it is. -/
def updateOne : List Product → Int → Int → List Product
  | [], _, _ => []
  | p :: ps, id, inc =>
    if p.id = id then { p with stock := p.stock.add inc } :: ps
    else p :: updateOne ps id inc

/-- The call `insertOne(sale)`: the document is appended to the collection. -/
def insertOne (docs : List Sale) (sale : Sale) : List Sale :=
  docs ++ [sale]

/-! ## Regular expressions of the title filter -/

/-- One position of a compiled pattern. -/
inductive Atom where
  | lit (c : Char)
  | any
deriving DecidableEq

/-- The code points that do not stand for themselves in a pattern: backslash,
`^ $ . [ ] | ( ) ? * +`, the two braces, and the NUL character, which a pattern
cannot hold. -/
def metaChars : List Nat :=
  [92, 94, 36, 46, 91, 93, 124, 40, 41, 63, 42, 43, 123, 125, 0]

/-- Whether a character stands for itself in a pattern. -/
def isPlain (c : Char) : Bool :=
  !(metaChars.contains c.toNat)

/-- Compilation of the patterns built from plain characters and `.`. -/
def compile : List Char → Option (List Atom)
  | [] => some []
  | c :: cs =>
    if c = '.' then (compile cs).map (fun as => Atom.any :: as)
    else if isPlain c then (compile cs).map (fun as => Atom.lit c :: as)
    else none

/-- The case fold of a character under the option `i`. -/
def caseFold (env : Env) (c : Char) : Char :=
  if c.toNat < 128 then c.toLower else env.unicodeFold c

/-- Whether an atom accepts a character, under the option `i`: a literal accepts
the characters with its case fold, `.` every character but the line feed. -/
def Atom.accepts (env : Env) : Atom → Char → Bool
  | Atom.lit c, d => caseFold env c == caseFold env d
  | Atom.any, d => d != '\n'

/-- Whether the pattern matches at the start of the subject. -/
def matchHere (env : Env) : List Atom → List Char → Bool
  | [], _ => true
  | _ :: _, [] => false
  | a :: as, c :: cs => a.accepts env c && matchHere env as cs

/-- Unanchored search: the pattern matches at some position of the subject. -/
def search (env : Env) (as : List Atom) : List Char → Bool
  | [] => matchHere env as []
  | c :: cs => matchHere env as (c :: cs) || search env as cs

/-- The operator `{ $regex: pattern, $options: 'i' }` as a test on a field value;
`none` when the store rejects the pattern. -/
def regex (env : Env) (pattern : String) : Option (String → Bool) :=
  match compile pattern.data with
  | some as => some (fun subject => search env as subject.data)
  | none => env.pcre pattern

/-! ## `parseInt(text, 10)` -/

/-- The code points that `parseInt` skips at the start of its input
(ECMAScript `WhiteSpace` and `LineTerminator`). -/
def isWhiteSpace (c : Char) : Bool :=
  [9, 10, 11, 12, 13, 32, 160, 5760, 8232, 8233, 8239, 8287, 12288, 65279].contains c.toNat
    || (8192 ≤ c.toNat && c.toNat ≤ 8202)

/-- The input of `parseInt` after the leading white space is removed, split into
its sign and the rest. -/
def splitSign : List Char → Int × List Char
  | '-' :: rest => (-1, rest)
  | '+' :: rest => (1, rest)
  | rest => (1, rest)

/-- The value of a sequence of decimal digits. -/
def digitsValue (ds : List Char) : Nat :=
  ds.foldl (fun n c => 10 * n + (c.toNat - 48)) 0

/-- The function `parseInt(text, 10)`: NaN without a digit, else the double
nearest to the integer that the sign and the leading digits denote. -/
def parseInt (text : String) : JsNumber :=
  let (sign, rest) := splitSign (text.data.dropWhile isWhiteSpace)
  let digits := rest.takeWhile Char.isDigit
  if digits = [] then .nan else roundDouble (sign * (digitsValue digits : Int)) 0

/-! ## Route handlers -/

/-- JavaScript `!query` on an absent or textual query parameter. -/
def falsy : Option String → Bool
  | none => true
  | some q => q = ""

/-- The call `productsCollection.find(filter).toArray()`, where the filter is
absent or `{ title: { $regex: pattern, $options: 'i' } }`; `none` when the store
rejects. -/
def find (env : Env) (docs : List Product) : Option String → Option (List Product)
  | none => if env.findThrows then none else some docs
  | some pattern =>
    match regex env pattern with
    | none => none
    | some test => if env.findThrows then none else some (docs.filter (fun p => test p.title))

/-- The handler `app.get('/api/items')`. -/
def getItems (env : Env) (db : Db) (query : Option String) : Response × Db :=
  let products :=
    if falsy query then find env db.productsCollection none
    else find env db.productsCollection query
  match products with
  | some products => (⟨200, .products products⟩, db)
  | none => (⟨500, .failure "Error al obtener productos"⟩, db)

/-- The handler `app.get('/api/items/:id')`. -/
def getItemById (env : Env) (db : Db) (id : String) : Response × Db :=
  let productId := parseInt id
  if env.findOneThrows then
    (⟨500, .failure "Error al obtener el producto por ID"⟩, db)
  else
    match productId.toInt?.bind (findOne db.productsCollection) with
    | none => (⟨404, .message "Producto no encontrado"⟩, db)
    | some product => (⟨200, .product product⟩, db)

/-- The handler `app.get('/api/sales')`. -/
def getSales (env : Env) (db : Db) : Response × Db :=
  if env.findThrows then (⟨500, .failure "Error al obtener las ventas"⟩, db)
  else (⟨200, .sales db.salesCollection⟩, db)

/-- The handler `app.post('/api/sales')` on the body `{ productId, quantity }`. -/
def postSales (env : Env) (db : Db) (productId quantity : Int) : Response × Db :=
  if env.findOneThrows then (⟨500, .failure "Error al realizar la compra"⟩, db)
  else
    match findOne db.productsCollection productId with
    | none => (⟨404, .message "Producto no encontrado"⟩, db)
    | some product =>
      if product.stock.lt quantity then (⟨400, .message "Stock insuficiente"⟩, db)
      else
        let total := product.price.mul quantity
        let sale : Sale := { productId := productId, quantity := quantity, date := env.now, total := total }
        if env.insertOneThrows then (⟨500, .failure "Error al realizar la compra"⟩, db)
        else
          let db1 : Db := { db with salesCollection := insertOne db.salesCollection sale }
          if env.updateOneThrows then (⟨500, .failure "Error al realizar la compra"⟩, db1)
          else
            (⟨201, .purchase "Compra realizada con éxito" sale⟩,
              { db1 with productsCollection := updateOne db1.productsCollection productId (-quantity) })

/-! ## Requests and sequential execution -/

/-- The four routes with their inputs. -/
inductive Request where
  | listProducts (query : Option String)
  | getProduct (id : String)
  | listSales
  | purchase (productId quantity : Int)

/-- Whether the request is one of the three `GET` routes. -/
def Request.isRead : Request → Bool
  | .purchase _ _ => false
  | _ => true

/-- Routing of one request. -/
def handle (env : Env) (db : Db) : Request → Response × Db
  | .listProducts query => getItems env db query
  | .getProduct id => getItemById env db id
  | .listSales => getSales env db
  | .purchase productId quantity => postSales env db productId quantity

/-- The database after the requests are executed one after the other, each in
its own environment. -/
def run (db : Db) : List (Env × Request) → Db
  | [] => db
  | (env, req) :: rest => run (handle env db req).2 rest

/-- An environment in which no store call rejects, the characters outside ASCII
have no other case and every pattern outside those of `compile` is refused. -/
def Env.quiet (now : Nat) : Env :=
  { now := now, findThrows := false, findOneThrows := false,
    insertOneThrows := false, updateOneThrows := false,
    unicodeFold := fun c => c, pcre := fun _ => none }

/-- The catalog of the end-to-end scenario. -/
def widgetShop : Db :=
  { productsCollection := [{ id := 1, title := "Widget", price := .ofInt 10, stock := .ofInt 5 }],
    salesCollection := [] }

/-- An environment in which the sale is persisted and the stock update rejects. -/
def Env.updateFails (now : Nat) : Env :=
  { Env.quiet now with updateOneThrows := true }

/-- A catalog whose product has the price, the stock and the id 94906267, a
number whose square needs more than 53 bits. -/
def bulkShop : Db :=
  { productsCollection :=
      [{ id := 94906267, title := "Bolt", price := .ofInt 94906267,
          stock := .ofInt 94906267 }],
    salesCollection := [] }

/-- A catalog whose product has the price 0.1, the double
`3602879701896397 * 2 ^ (-55)`. -/
def pennyShop : Db :=
  { productsCollection :=
      [{ id := 7, title := "Nail", price := .fin 3602879701896397 (-55),
          stock := .ofInt 100 }],
    salesCollection := [] }

/-- A catalog whose product has the id `2 ^ 53`. -/
def farShop : Db :=
  { productsCollection :=
      [{ id := 9007199254740992, title := "Star", price := .ofInt 1, stock := .ofInt 1 }],
    salesCollection := [] }

/-- A catalog of two products with one sale already stored. -/
def twoShop : Db :=
  { productsCollection :=
      [{ id := 12, title := "Lamp", price := .ofInt 30, stock := .ofInt 4 },
        { id := 1, title := "Widget", price := .ofInt 10, stock := .ofInt 5 }],
    salesCollection := [{ productId := 12, quantity := 1, date := 3, total := .ofInt 30 }] }

/-- A catalog with one product whose id is 12. -/
def lampShop : Db :=
  { productsCollection := [{ id := 12, title := "Lamp", price := .ofInt 30, stock := .ofInt 4 }],
    salesCollection := [] }

/-! ## Notions of the specification -/

/-- The title contains the filter text as a substring, letter case ignored:
the case folds of the filter's characters are a contiguous part of those of the
title's. -/
def containsIgnoreCase (env : Env) (filter title : String) : Bool :=
  decide (filter.data.map (caseFold env) <:+: title.data.map (caseFold env))

/-- The text is a numeral: decimal digits, at least one, after an optional sign. -/
def isNumeral (text : String) : Bool :=
  let digits := (splitSign text.data).2
  !digits.isEmpty && digits.all Char.isDigit

/-- The text starts with a number: after leading white space and an optional
sign comes a decimal digit. -/
def startsWithNumber (text : String) : Bool :=
  match (splitSign (text.data.dropWhile isWhiteSpace)).2 with
  | [] => false
  | c :: _ => c.isDigit

/-! ## Arithmetic of doubles -/

theorem log2Aux_le (fuel n k : Nat) (h : n < 2 ^ (k + 1)) : log2Aux fuel n ≤ k := by
  induction fuel generalizing n k with
  | zero => simp [log2Aux]
  | succ fuel ih =>
    unfold log2Aux
    split
    · exact Nat.zero_le _
    · rename_i h2
      cases k with
      | zero => omega
      | succ k =>
        have : n / 2 < 2 ^ (k + 1) := by
          rw [Nat.div_lt_iff_lt_mul (by norm_num)]
          rw [pow_succ] at h
          exact h
        exact Nat.succ_le_succ (ih _ _ this)

theorem log2Aux_pow (j fuel : Nat) (h : j ≤ fuel) : log2Aux fuel (2 ^ j) = j := by
  induction j generalizing fuel with
  | zero => cases fuel <;> simp [log2Aux]
  | succ j ih =>
    cases fuel with
    | zero => omega
    | succ fuel =>
      unfold log2Aux
      have h2 : ¬ 2 ^ (j + 1) < 2 := by
        have : 1 ≤ 2 ^ j := Nat.one_le_two_pow
        rw [pow_succ]; omega
      rw [if_neg h2]
      have : 2 ^ (j + 1) / 2 = 2 ^ j := by
        rw [pow_succ]; exact Nat.mul_div_cancel _ (by norm_num)
      rw [this, ih fuel (Nat.le_of_succ_le_succ h)]

theorem log2_pow (j : Nat) : log2 (2 ^ j) = j :=
  log2Aux_pow j _ (le_of_lt (Nat.lt_two_pow j))

theorem normal_toRat (negative : Bool) (m : Nat) (e : Int) :
    (normal negative m e).toRat? =
      some ((if negative then -(m : ℚ) else (m : ℚ)) * (2 : ℚ) ^ e) := by
  unfold normal
  split
  · rename_i hm
    subst hm
    cases negative <;> simp [JsNumber.toRat?]
  · obtain ⟨j, _, hj⟩ := (Nat.dvd_prime_pow Nat.prime_two).1 (Nat.gcd_dvd_right m (2 ^ log2 m))
    have hdvd : 2 ^ j ∣ m := hj ▸ Nat.gcd_dvd_left m (2 ^ log2 m)
    obtain ⟨c, hc⟩ := hdvd
    simp only [hj, log2_pow, JsNumber.toRat?]
    have hdiv : m / 2 ^ j = c := by
      rw [hc]; exact Nat.mul_div_cancel_left _ (by positivity)
    rw [hdiv, hc, zpow_add₀ (by norm_num : (2 : ℚ) ≠ 0)]
    cases negative <;> simp <;> ring

theorem roundHalfEven_one (a : Nat) : roundHalfEven a 1 = a := by
  simp [roundHalfEven, Nat.mod_one]

/-- A value that fits the 53 bits of a double is not rounded. -/
theorem roundDouble_of_fit (n e : Int) (hfit : n.natAbs < 2 ^ 53)
    (hlow : -1074 ≤ e) (hhigh : e ≤ 971) :
    roundDouble n e = normal (decide (n < 0)) n.natAbs e := by
  have hlog : log2 n.natAbs ≤ 52 := log2Aux_le _ _ 52 hfit
  have ht : max ((log2 n.natAbs : Int) + e - 52) (-1074) ≤ e := by
    apply max_le <;> omega
  have hshift : (max ((log2 n.natAbs : Int) + e - 52) (-1074) - e).toNat = 0 := by
    omega
  simp only [roundDouble, hshift, pow_zero, roundHalfEven_one, max_eq_right ht]
  rw [if_neg (by omega)]

theorem roundDouble_nonneg (n e : Int) (h : 0 ≤ n) : (roundDouble n e).nonneg = true := by
  have hn : ¬ n < 0 := not_lt.2 h
  simp only [roundDouble, hn, decide_False]
  split
  · rfl
  · unfold normal
    split
    · rfl
    · simp only [JsNumber.nonneg, Bool.false_eq_true, if_false, decide_eq_true_eq]
      exact Int.ofNat_nonneg _

/-- When the exact product fits the 53 bits of a double, the product is exact. -/
theorem mul_exact (mant exp q : Int) (hfit : (mant * q).natAbs < 2 ^ 53)
    (hlow : -1074 ≤ exp) (hhigh : exp ≤ 971) :
    ((JsNumber.fin mant exp).mul q).toRat? = some ((mant : ℚ) * (2 : ℚ) ^ exp * q) := by
  simp only [JsNumber.mul]
  rw [roundDouble_of_fit _ _ hfit hlow hhigh, normal_toRat]
  congr 1
  by_cases hneg : mant * q < 0
  · simp only [hneg, decide_True, if_true]
    have h2 : (((mant * q).natAbs : Nat) : ℚ) = -((mant : ℚ) * q) := by
      rw [Nat.cast_natAbs, abs_of_neg hneg]
      push_cast
      rfl
    rw [h2]; ring
  · simp only [hneg, decide_False]
    have h2 : (((mant * q).natAbs : Nat) : ℚ) = (mant : ℚ) * q := by
      rw [Nat.cast_natAbs, abs_of_nonneg (not_lt.1 hneg)]
      push_cast
      rfl
    simp [h2]; ring

theorem mul_nonneg_of_pos (x : JsNumber) (q : Int) (hx : x.nonneg = true) (hq : 0 < q) :
    (x.mul q).nonneg = true := by
  cases x with
  | nan => simp [JsNumber.nonneg] at hx
  | inf negative =>
    have hn : negative = false := by simpa [JsNumber.nonneg] using hx
    have hq0 : q ≠ 0 := by omega
    have hqn : ¬ q < 0 := by omega
    simp [JsNumber.mul, hq0, hqn, hn, JsNumber.nonneg]
  | fin mant exp =>
    have hm : 0 ≤ mant := by simpa [JsNumber.nonneg] using hx
    exact roundDouble_nonneg _ _ (Int.mul_nonneg hm (le_of_lt hq))

theorem lt_false_of_ge (x : JsNumber) (q : Int) (h : x.ge q = true) : x.lt q = false := by
  cases x with
  | nan => simp [JsNumber.ge] at h
  | inf negative => simpa [JsNumber.ge, JsNumber.lt] using h
  | fin mant exp =>
    by_cases he : 0 ≤ exp
    · simp only [JsNumber.ge, if_pos he, decide_eq_true_eq] at h
      simp only [JsNumber.lt, if_pos he, decide_eq_false_iff_not, not_lt]
      exact h
    · simp only [JsNumber.ge, if_neg he, decide_eq_true_eq] at h
      simp only [JsNumber.lt, if_neg he, decide_eq_false_iff_not, not_lt]
      exact h

/-- A non-negative number that is not below `q` stays non-negative when `q` is
taken from it. -/
theorem add_neg_nonneg (x : JsNumber) (q : Int) (hx : x.nonneg = true)
    (hlt : x.lt q = false) : (x.add (-q)).nonneg = true := by
  cases x with
  | nan => simp [JsNumber.nonneg] at hx
  | inf negative => simpa [JsNumber.add] using hx
  | fin mant exp =>
    by_cases he : 0 ≤ exp
    · simp only [JsNumber.lt, if_pos he, decide_eq_false_iff_not, not_lt] at hlt
      simp only [JsNumber.add, if_pos he]
      exact roundDouble_nonneg _ _ (by omega)
    · simp only [JsNumber.lt, if_neg he, decide_eq_false_iff_not, not_lt] at hlt
      simp only [JsNumber.add, if_neg he]
      apply roundDouble_nonneg
      have : -q * 2 ^ (-exp).toNat = -(q * 2 ^ (-exp).toNat) := by ring
      omega

/-- The number that holds an integer of at most 53 bits is that integer. -/
theorem ofInt_of_fit (s : Int) (hfit : s.natAbs < 2 ^ 53) :
    ∃ mant exp : Int, JsNumber.ofInt s = .fin mant exp ∧ 0 ≤ exp ∧ mant * 2 ^ exp.toNat = s := by
  unfold JsNumber.ofInt
  rw [roundDouble_of_fit s 0 hfit (by norm_num) (by norm_num)]
  unfold normal
  split
  · rename_i h0
    exact ⟨0, 0, rfl, le_refl _, by omega⟩
  · obtain ⟨j, _, hj⟩ := (Nat.dvd_prime_pow Nat.prime_two).1
      (Nat.gcd_dvd_right s.natAbs (2 ^ log2 s.natAbs))
    have hdvd : 2 ^ j ∣ s.natAbs := hj ▸ Nat.gcd_dvd_left s.natAbs (2 ^ log2 s.natAbs)
    obtain ⟨c, hc⟩ := hdvd
    have hdiv : s.natAbs / 2 ^ j = c := by
      rw [hc]; exact Nat.mul_div_cancel_left _ (by positivity)
    simp only [hj, log2_pow, hdiv]
    refine ⟨_, _, rfl, by omega, ?_⟩
    have hnat : ((0 : Int) + (j : Int)).toNat = j := by omega
    rw [hnat]
    have hcast : ((c : Int)) * 2 ^ j = (s.natAbs : Int) := by
      rw [hc]; push_cast; ring
    by_cases hneg : s < 0
    · simp only [hneg, decide_True, if_true]
      rw [neg_mul, hcast]; omega
    · simp only [hneg, decide_False]
      rw [show (if false = true then -(c : Int) else (c : Int)) = c from rfl, hcast]; omega

/-- Adding an integer to an integer of at most 53 bits rounds the exact sum. -/
theorem ofInt_add (s d : Int) (hfit : s.natAbs < 2 ^ 53) :
    (JsNumber.ofInt s).add d = .ofInt (s + d) := by
  obtain ⟨mant, exp, heq, hexp, hval⟩ := ofInt_of_fit s hfit
  rw [heq]
  simp only [JsNumber.add, if_pos hexp, hval]
  rfl

/-- Rounding at the edges of the format: a tie goes to the even neighbour, the
largest double is `(2 ^ 53 - 1) * 2 ^ 971`, half a unit above it is an infinity,
the smallest double is `2 ^ (-1074)` and half of it is zero. -/
theorem roundDouble_examples :
    roundDouble 9007199254740993 0 = .fin 1 53 ∧
      roundDouble 9007199254740995 0 = roundDouble 9007199254740996 0 ∧
      roundDouble (2 ^ 53 - 1) 971 = .fin (2 ^ 53 - 1) 971 ∧
      roundDouble (2 ^ 54 - 1) 970 = .inf false ∧
      roundDouble (-(2 ^ 54 - 1)) 970 = .inf true ∧
      roundDouble 1 (-1074) = .fin 1 (-1074) ∧
      roundDouble 3 (-1075) = .fin 1 (-1073) ∧
      roundDouble 1 (-1075) = .fin 0 0 ∧
      roundDouble (-7) 0 = .fin (-7) 0 := by
  decide

/-- The double model on three products and three sums: 94906267 squared is
rounded to even, 0.1 * 3 is 0.30000000000000004, 10 * 2 is 20, 5 - 2 is 3,
`2 ^ 53 + 2` less 1 is `2 ^ 53`, and 2.5 is below 3. -/
theorem arithmetic_examples :
    (JsNumber.ofInt 94906267).mul 94906267 = .ofInt 9007199515875288 ∧
      (JsNumber.ofInt 9007199515875288).toInt? = some 9007199515875288 ∧
      (JsNumber.fin 3602879701896397 (-55)).mul 3 = .fin 1351079888211149 (-52) ∧
      (JsNumber.ofInt 10).mul 2 = .ofInt 20 ∧
      (JsNumber.ofInt 5).add (-2) = .ofInt 3 ∧
      (JsNumber.ofInt 9007199254740994).add (-1) = .ofInt 9007199254740992 ∧
      (JsNumber.fin 5 (-1)).lt 3 = true ∧ (JsNumber.fin 5 (-1)).ge 3 = false := by
  decide

/-- The result of `parseInt` is a double: the digits of `2 ^ 53 + 1` are read as
`2 ^ 53`, and the lookup route then finds the product with that id. -/
theorem parseInt_examples :
    (parseInt "9007199254740993").toInt? = some 9007199254740992 ∧
      getItemById (Env.quiet 0) farShop "9007199254740993" =
        (⟨200, .product ⟨9007199254740992, "Star", .ofInt 1, .ofInt 1⟩⟩, farShop) ∧
      (parseInt " -42px").toInt? = some (-42) ∧
      parseInt "px" = .nan := by
  decide

/-! ## Lookup and update of the catalog -/

theorem findOne_some {ps : List Product} {id : Int} {P : Product}
    (h : findOne ps id = some P) : P ∈ ps ∧ P.id = id := by
  induction ps with
  | nil => simp [findOne] at h
  | cons p ps ih =>
    unfold findOne at h
    split at h
    · rename_i hp
      cases h
      exact ⟨List.mem_cons_self _ _, hp⟩
    · exact ⟨List.mem_cons_of_mem _ (ih h).1, (ih h).2⟩

theorem findOne_none {ps : List Product} {id : Int}
    (h : ∀ p ∈ ps, p.id ≠ id) : findOne ps id = none := by
  induction ps with
  | nil => rfl
  | cons p ps ih =>
    unfold findOne
    rw [if_neg (h p (List.mem_cons_self _ _))]
    exact ih (fun q hq => h q (List.mem_cons_of_mem _ hq))

theorem findOne_of_nodup {ps : List Product} {P : Product}
    (huniq : (ps.map Product.id).Nodup) (hP : P ∈ ps) : findOne ps P.id = some P := by
  induction ps with
  | nil => cases hP
  | cons p ps ih =>
    rw [List.map_cons, List.nodup_cons] at huniq
    unfold findOne
    rcases List.mem_cons.1 hP with rfl | hmem
    · rw [if_pos rfl]
    · have hne : p.id ≠ P.id := fun heq =>
        huniq.1 (heq ▸ List.mem_map_of_mem Product.id hmem)
      rw [if_neg hne]
      exact ih huniq.2 hmem

/-- The shape of an update that finds its product: the documents before it carry
another id, and it alone is rewritten. -/
theorem updateOne_split {ps : List Product} {id : Int} {P : Product} (inc : Int)
    (h : findOne ps id = some P) :
    ∃ before after, ps = before ++ P :: after ∧ (∀ p ∈ before, p.id ≠ id) ∧
      updateOne ps id inc = before ++ { P with stock := P.stock.add inc } :: after := by
  induction ps with
  | nil => simp [findOne] at h
  | cons p ps ih =>
    unfold findOne at h
    unfold updateOne
    split at h
    · rename_i hp
      cases h
      exact ⟨[], ps, rfl, by simp, by simp [hp]⟩
    · rename_i hp
      obtain ⟨before, after, hps, hbefore, hupd⟩ := ih h
      refine ⟨p :: before, after, by simp [hps], ?_, ?_⟩
      · intro q hq
        rcases List.mem_cons.1 hq with rfl | hq
        · exact hp
        · exact hbefore q hq
      · rw [if_neg hp, hupd]
        rfl

theorem findOne_append_cons {before after : List Product} {id : Int} (Q : Product)
    (hbefore : ∀ p ∈ before, p.id ≠ id) (hQ : Q.id = id) :
    findOne (before ++ Q :: after) id = some Q := by
  induction before with
  | nil => simp [findOne, hQ]
  | cons p ps ih =>
    rw [List.cons_append]
    unfold findOne
    rw [if_neg (hbefore p (List.mem_cons_self _ _))]
    exact ih (fun q hq => hbefore q (List.mem_cons_of_mem _ hq))

/-! ## The purchase transaction -/

/-- The sale record that the purchase handler builds for a product. -/
theorem postSales_of_found {env : Env} {db : Db} {productId quantity : Int} {P : Product}
    (hfind : env.findOneThrows = false)
    (hP : findOne db.productsCollection productId = some P) :
    postSales env db productId quantity =
      if P.stock.lt quantity then (⟨400, .message "Stock insuficiente"⟩, db)
      else if env.insertOneThrows then (⟨500, .failure "Error al realizar la compra"⟩, db)
      else if env.updateOneThrows then
        (⟨500, .failure "Error al realizar la compra"⟩,
          { db with salesCollection :=
              db.salesCollection ++ [⟨productId, quantity, env.now, P.price.mul quantity⟩] })
      else
        (⟨201, .purchase "Compra realizada con éxito"
            ⟨productId, quantity, env.now, P.price.mul quantity⟩⟩,
          { productsCollection := updateOne db.productsCollection productId (-quantity),
            salesCollection :=
              db.salesCollection ++ [⟨productId, quantity, env.now, P.price.mul quantity⟩] }) := by
  simp only [postSales, hfind, hP, insertOne]
  rfl

/-- Every outcome of the purchase handler on the two collections. -/
theorem postSales_cases (env : Env) (db : Db) (productId quantity : Int) :
    ((postSales env db productId quantity).2 = db ∧
        (postSales env db productId quantity).1.status ≠ 201) ∨
      ∃ P, findOne db.productsCollection productId = some P ∧ P.stock.lt quantity = false ∧
        (((postSales env db productId quantity).1.status = 500 ∧
            (postSales env db productId quantity).2 =
              { db with salesCollection :=
                  db.salesCollection ++ [⟨productId, quantity, env.now, P.price.mul quantity⟩] }) ∨
          (postSales env db productId quantity).1 =
              ⟨201, .purchase "Compra realizada con éxito"
                ⟨productId, quantity, env.now, P.price.mul quantity⟩⟩ ∧
            (postSales env db productId quantity).2 =
              { productsCollection := updateOne db.productsCollection productId (-quantity),
                salesCollection :=
                  db.salesCollection ++
                    [⟨productId, quantity, env.now, P.price.mul quantity⟩] }) := by
  cases hfind : env.findOneThrows with
  | true => left; simp [postSales, hfind]
  | false =>
    cases hP : findOne db.productsCollection productId with
    | none => left; simp [postSales, hfind, hP]
    | some P =>
      rw [postSales_of_found hfind hP]
      cases hlt : P.stock.lt quantity with
      | true => left; simp
      | false =>
        simp only [Bool.false_eq_true, if_false]
        cases env.insertOneThrows with
        | true => left; simp
        | false =>
          right
          refine ⟨P, rfl, hlt, ?_⟩
          cases env.updateOneThrows with
          | true => left; simp
          | false => right; simp

/-- Reads leave both collections as they are. -/
theorem handle_read (env : Env) (db : Db) (req : Request) (hread : req.isRead = true) :
    (handle env db req).2 = db := by
  cases req with
  | listProducts query =>
    simp only [handle, getItems]
    split <;> rfl
  | getProduct id =>
    simp only [handle, getItemById]
    split
    · rfl
    · split <;> rfl
  | listSales =>
    simp only [handle, getSales]
    split <;> rfl
  | purchase productId quantity => simp [Request.isRead] at hread

/-- One request keeps every stock non-negative. -/
theorem handle_stock_nonneg (env : Env) (db : Db) (req : Request)
    (h : ∀ p ∈ db.productsCollection, p.stock.nonneg = true) :
    ∀ p ∈ (handle env db req).2.productsCollection, p.stock.nonneg = true := by
  cases hreq : req.isRead with
  | true => rw [handle_read env db req hreq]; exact h
  | false =>
    cases req with
    | purchase productId quantity =>
      simp only [handle]
      rcases postSales_cases env db productId quantity with ⟨hdb, _⟩ | ⟨P, hP, hle, hcase⟩
      · rw [hdb]; exact h
      · rcases hcase with ⟨_, hdb⟩ | ⟨_, hdb⟩
        · rw [hdb]; exact h
        · rw [hdb]
          obtain ⟨before, after, hps, _, hupd⟩ := updateOne_split (-quantity) hP
          simp only [hupd]
          intro p hp
          rw [hps] at h
          rcases List.mem_append.1 hp with hp | hp
          · exact h p (List.mem_append_left _ hp)
          · rcases List.mem_cons.1 hp with rfl | hp
            · exact add_neg_nonneg P.stock quantity
                (h P (List.mem_append_right _ (List.mem_cons_self _ _))) hle
            · exact h p (List.mem_append_right _ (List.mem_cons_of_mem _ hp))
    | listProducts query => simp [Request.isRead] at hreq
    | getProduct id => simp [Request.isRead] at hreq
    | listSales => simp [Request.isRead] at hreq

/-! ## Properties of the routes -/

/-- C1: a purchase of a positive quantity within the stock of a product P of a
catalog with unique ids answers 201 with the sale (P.id, quantity,
P.price * quantity), and afterwards the product found under P.id, the only one
with that id, is P with its stock reduced by the quantity.  Product and
difference are those of JavaScript numbers: the total is the exact product
whenever that fits the 53 bits of a double, and a stock that is an integer of at
most 53 bits becomes the integer less the quantity. -/
theorem purchase_succeeds (env : Env) (db : Db) (P : Product) (quantity : Int)
    (hfind : env.findOneThrows = false) (hins : env.insertOneThrows = false)
    (hupd : env.updateOneThrows = false)
    (hP : P ∈ db.productsCollection)
    (huniq : (db.productsCollection.map Product.id).Nodup)
    (_hpos : 0 < quantity) (hstock : P.stock.ge quantity = true) :
    (postSales env db P.id quantity).1 =
        ⟨201, .purchase "Compra realizada con éxito"
          ⟨P.id, quantity, env.now, P.price.mul quantity⟩⟩ ∧
      findOne (postSales env db P.id quantity).2.productsCollection P.id =
        some { P with stock := P.stock.add (-quantity) } ∧
      (∀ p ∈ (postSales env db P.id quantity).2.productsCollection,
        p.id = P.id → p.stock = P.stock.add (-quantity)) ∧
      (∀ mant exp : Int, P.price = .fin mant exp → (mant * quantity).natAbs < 2 ^ 53 →
        -1074 ≤ exp → exp ≤ 971 →
        (P.price.mul quantity).toRat? = some ((mant : ℚ) * (2 : ℚ) ^ exp * quantity)) ∧
      ∀ stock : Int, P.stock = .ofInt stock → stock.natAbs < 2 ^ 53 →
        P.stock.add (-quantity) = .ofInt (stock - quantity) := by
  have hfound := findOne_of_nodup huniq hP
  obtain ⟨before, after, hps, hbefore, hupdate⟩ := updateOne_split (-quantity) hfound
  rw [postSales_of_found hfind hfound, lt_false_of_ge P.stock quantity hstock, hins, hupd]
  simp only [Bool.false_eq_true, if_false, hupdate]
  refine ⟨trivial, ?_, ?_, ?_, ?_⟩
  · rw [findOne_append_cons { P with stock := P.stock.add (-quantity) } hbefore rfl]
  · intro p hp hid
    rw [hps, List.map_append, List.map_cons, List.nodup_append] at huniq
    obtain ⟨_, hafter, hdisj⟩ := huniq
    rcases List.mem_append.1 hp with hp | hp
    · exact absurd hid (hbefore p hp)
    · rcases List.mem_cons.1 hp with rfl | hp
      · rfl
      · exact absurd (hid ▸ List.mem_map_of_mem Product.id hp) (List.nodup_cons.1 hafter).1
  · intro mant exp hprice hfit hlow hhigh
    rw [hprice]
    exact mul_exact mant exp quantity hfit hlow hhigh
  · intro stock hstk hfit
    rw [hstk, ofInt_add stock (-quantity) hfit, Int.sub_eq_add_neg]

/-- C1 on the end-to-end scenario (price 10, stock 5, quantity 2: total 20,
stock 3), and on a product of price, stock and quantity 94906267, where the
total is the double nearest to the square. -/
theorem purchase_succeeds_witness :
    ((postSales (Env.quiet 0) widgetShop 1 2).1 =
        ⟨201, .purchase "Compra realizada con éxito" ⟨1, 2, 0, .ofInt 20⟩⟩ ∧
      findOne (postSales (Env.quiet 0) widgetShop 1 2).2.productsCollection 1 =
        some ⟨1, "Widget", .ofInt 10, .ofInt 3⟩ ∧
      ((JsNumber.ofInt 10).mul 2).toRat? = some 20 ∧
      (JsNumber.ofInt 5).add (-2) = .ofInt (5 - 2)) ∧
      (postSales (Env.quiet 0) bulkShop 94906267 94906267).1 =
        ⟨201, .purchase "Compra realizada con éxito"
          ⟨94906267, 94906267, 0, .ofInt 9007199515875288⟩⟩ ∧
      findOne (postSales (Env.quiet 0) bulkShop 94906267 94906267).2.productsCollection
          94906267 =
        some ⟨94906267, "Bolt", .ofInt 94906267, .ofInt 0⟩ :=
  have h := purchase_succeeds (Env.quiet 0) widgetShop ⟨1, "Widget", .ofInt 10, .ofInt 5⟩ 2
    rfl rfl rfl (by decide) (by decide) (by decide) (by decide)
  have hbulk := purchase_succeeds (Env.quiet 0) bulkShop
    ⟨94906267, "Bolt", .ofInt 94906267, .ofInt 94906267⟩ 94906267 rfl rfl rfl
    (by decide) (by decide) (by decide) (by decide)
  ⟨⟨h.1.trans (by decide), h.2.1.trans (by decide),
      (h.2.2.2.1 5 1 (by decide) (by decide) (by decide) (by decide)).trans (by norm_num),
      h.2.2.2.2 5 (by decide) (by decide)⟩,
    hbulk.1.trans (by decide), hbulk.2.1.trans (by decide)⟩

/-- C2: when the stock of a product P of a catalog with unique ids is below the
quantity, the purchase answers 400 "Stock insuficiente" and the database is the
one before the request: no sale is added and no stock changes. -/
theorem purchase_insufficient_stock (env : Env) (db : Db) (P : Product) (quantity : Int)
    (hfind : env.findOneThrows = false)
    (hP : P ∈ db.productsCollection)
    (huniq : (db.productsCollection.map Product.id).Nodup)
    (hlt : P.stock.lt quantity = true) :
    postSales env db P.id quantity = (⟨400, .message "Stock insuficiente"⟩, db) := by
  rw [postSales_of_found hfind (findOne_of_nodup huniq hP), if_pos hlt]

/-- C2 on the end-to-end scenario: stock 5, quantity 10. -/
theorem purchase_insufficient_stock_witness :
    postSales (Env.quiet 0) widgetShop 1 10 =
      (⟨400, .message "Stock insuficiente"⟩, widgetShop) :=
  purchase_insufficient_stock (Env.quiet 0) widgetShop ⟨1, "Widget", .ofInt 10, .ofInt 5⟩ 10 rfl
    (by decide) (by decide) (by decide)

/-- C3: for an id that no product carries, the purchase answers 404 for every
quantity and leaves the database as it is, and the lookup route answers 404 for
every text that `parseInt` reads as that id. -/
theorem unknown_id_not_found (env : Env) (db : Db) (id : Int)
    (hfind : env.findOneThrows = false)
    (hnone : ∀ p ∈ db.productsCollection, p.id ≠ id) :
    (∀ quantity : Int,
        postSales env db id quantity = (⟨404, .message "Producto no encontrado"⟩, db)) ∧
      ∀ text : String, (parseInt text).toInt? = some id →
        getItemById env db text = (⟨404, .message "Producto no encontrado"⟩, db) := by
  constructor
  · intro quantity
    simp [postSales, hfind, findOne_none hnone]
  · intro text htext
    simp [getItemById, hfind, htext, findOne_none hnone]

/-- C3 on the end-to-end scenario: no product has id 999. -/
theorem unknown_id_not_found_witness :
    (parseInt "999").toInt? = some 999 ∧
      postSales (Env.quiet 0) widgetShop 999 1 =
        (⟨404, .message "Producto no encontrado"⟩, widgetShop) ∧
      getItemById (Env.quiet 0) widgetShop "999" =
        (⟨404, .message "Producto no encontrado"⟩, widgetShop) :=
  have h := unknown_id_not_found (Env.quiet 0) widgetShop 999 rfl (by decide)
  ⟨by decide, h.1 1, h.2 "999" (by decide)⟩

/-- C4: from a catalog whose stocks are all non-negative, every sequence of
requests executed one after the other, with any product ids, any integer
quantities and any store failures, ends in a catalog whose stocks are all
non-negative. -/
theorem stock_never_negative (db : Db) (trace : List (Env × Request))
    (h : ∀ p ∈ db.productsCollection, p.stock.nonneg = true) :
    ∀ p ∈ (run db trace).productsCollection, p.stock.nonneg = true := by
  induction trace generalizing db with
  | nil => exact h
  | cons step rest ih =>
    obtain ⟨env, req⟩ := step
    exact ih _ (handle_stock_nonneg env db req h)

/-- C4 on the scenario catalog: purchases of 2, 0, -3, 7 (refused) and 6 units
between reads end with stock 0. -/
theorem stock_never_negative_witness :
    (run widgetShop
        [(Env.quiet 0, .purchase 1 2), (Env.quiet 1, .listSales), (Env.quiet 2, .purchase 1 0),
          (Env.quiet 3, .purchase 1 (-3)), (Env.quiet 4, .getProduct "1"),
          (Env.quiet 5, .purchase 1 7), (Env.quiet 6, .purchase 1 6)]).productsCollection =
        [⟨1, "Widget", .ofInt 10, .ofInt 0⟩] ∧
      (run widgetShop
        [(Env.quiet 0, .purchase 1 2), (Env.quiet 1, .listSales), (Env.quiet 2, .purchase 1 0),
          (Env.quiet 3, .purchase 1 (-3)), (Env.quiet 4, .getProduct "1"),
          (Env.quiet 5, .purchase 1 7), (Env.quiet 6, .purchase 1 6)]).productsCollection.all
        (fun p => p.stock.nonneg) = true :=
  ⟨by decide,
    List.all_eq_true.2 (fun p hp => stock_never_negative widgetShop _ (by decide) p hp)⟩

/-! ## The title filter -/

theorem compile_plain (cs : List Char) (h : ∀ c ∈ cs, isPlain c = true) :
    compile cs = some (cs.map Atom.lit) := by
  induction cs with
  | nil => rfl
  | cons c cs ih =>
    have hc : isPlain c = true := h c (List.mem_cons_self _ _)
    have hdot : c ≠ '.' := by
      rintro rfl
      revert hc
      decide
    unfold compile
    rw [if_neg hdot, if_pos hc, ih (fun d hd => h d (List.mem_cons_of_mem _ hd))]
    rfl

theorem matchHere_lit (env : Env) (f t : List Char) :
    matchHere env (f.map Atom.lit) t = true ↔
      f.map (caseFold env) <+: t.map (caseFold env) := by
  induction f generalizing t with
  | nil => simp [matchHere]
  | cons c f ih =>
    cases t with
    | nil => simp [matchHere]
    | cons d t =>
      simp only [List.map_cons, matchHere, Atom.accepts, Bool.and_eq_true, beq_iff_eq,
        List.cons_prefix_cons, ih]

theorem search_lit (env : Env) (f t : List Char) :
    search env (f.map Atom.lit) t = true ↔
      f.map (caseFold env) <:+: t.map (caseFold env) := by
  induction t with
  | nil =>
    simp only [search, matchHere_lit, List.map_nil, List.prefix_nil, List.infix_nil]
  | cons d t ih =>
    simp only [search, Bool.or_eq_true, matchHere_lit, ih, List.map_cons, List.infix_cons_iff]

/-- C5, as the code has it: without a filter, or with the empty one, every
product is listed, and for a filter text without regular-expression
metacharacters exactly the products whose title contains the text, letter case
ignored, are listed, in the order of the catalog. -/
theorem list_products_plain_filter (env : Env) (db : Db) (filter : String)
    (hfind : env.findThrows = false)
    (hplain : ∀ c ∈ filter.data, isPlain c = true) :
    getItems env db none = (⟨200, .products db.productsCollection⟩, db) ∧
      getItems env db (some filter) =
        (⟨200, .products
            (db.productsCollection.filter (fun p => containsIgnoreCase env filter p.title))⟩,
          db) := by
  constructor
  · simp [getItems, falsy, find, hfind]
  · by_cases hempty : filter = ""
    · subst hempty
      have hall : (fun p : Product => containsIgnoreCase env "" p.title) = fun _ => true := by
        funext p
        simp [containsIgnoreCase]
      simp [getItems, falsy, find, hfind, hall]
    · have htest : (fun p : Product => search env (filter.data.map Atom.lit) p.title.data) =
          fun p => containsIgnoreCase env filter p.title := by
        funext p
        rw [Bool.eq_iff_iff, search_lit]
        simp [containsIgnoreCase]
      simp [getItems, falsy, hempty, find, regex, compile_plain _ hplain, hfind, htest]

/-- C5 on the scenario catalog, with the filter "wID", which the title "Widget"
contains when case is ignored. -/
theorem list_products_plain_filter_witness :
    (getItems (Env.quiet 0) widgetShop none =
        (⟨200, .products widgetShop.productsCollection⟩, widgetShop) ∧
      getItems (Env.quiet 0) widgetShop (some "wID") =
        (⟨200, .products
            (widgetShop.productsCollection.filter
              (fun p => containsIgnoreCase (Env.quiet 0) "wID" p.title))⟩,
          widgetShop)) ∧
      widgetShop.productsCollection.filter
          (fun p => containsIgnoreCase (Env.quiet 0) "wID" p.title) =
        [⟨1, "Widget", .ofInt 10, .ofInt 5⟩] ∧
      containsIgnoreCase (Env.quiet 0) "dig" "Widget" = false :=
  ⟨list_products_plain_filter (Env.quiet 0) widgetShop "wID" rfl (by decide),
    by decide, by decide⟩

/-- C5 as stated fails: the filter "." is a pattern that any character
satisfies, so the product "Widget" is listed although its title does not contain
a full stop. -/
theorem list_products_regex_counterexample :
    getItems (Env.quiet 0) widgetShop (some ".") =
        (⟨200, .products [⟨1, "Widget", .ofInt 10, .ofInt 5⟩]⟩, widgetShop) ∧
      containsIgnoreCase (Env.quiet 0) "." "Widget" = false := by
  decide

/-- C6, as the code has it: for a text that does not start with a number (after
leading white space and an optional sign there is no decimal digit) and every
catalog, the lookup route answers 404 and changes nothing. -/
theorem get_item_not_a_number (env : Env) (db : Db) (text : String)
    (hfind : env.findOneThrows = false)
    (htext : startsWithNumber text = false) :
    getItemById env db text = (⟨404, .message "Producto no encontrado"⟩, db) := by
  have hnan : parseInt text = .nan := by
    unfold startsWithNumber at htext
    unfold parseInt
    rcases hsplit : splitSign (text.data.dropWhile isWhiteSpace) with ⟨sign, rest⟩
    rw [hsplit] at htext
    cases rest with
    | nil => simp
    | cons c cs =>
      have hc : c.isDigit = false := htext
      simp [List.takeWhile, hc]
  simp [getItemById, hfind, hnan, JsNumber.toInt?]

/-- C6 on the text "abc". -/
theorem get_item_not_a_number_witness :
    getItemById (Env.quiet 0) lampShop "abc" =
      (⟨404, .message "Producto no encontrado"⟩, lampShop) :=
  get_item_not_a_number (Env.quiet 0) lampShop "abc" rfl (by decide)

/-- C6 as stated fails: "12abc" is not a numeral, yet `parseInt` reads 12 from
it and the route answers 200 with the product whose id is 12. -/
theorem get_item_numeric_head_counterexample :
    isNumeral "12abc" = false ∧
      getItemById (Env.quiet 0) lampShop "12abc" =
        (⟨200, .product ⟨12, "Lamp", .ofInt 30, .ofInt 4⟩⟩, lampShop) := by
  decide

/-- C7: a purchase answered with 201 appends exactly the returned sale to the
sales collection and rewrites one product, the first whose id is the requested
one, changing only its stock; every other document of the catalog stays in
place as it was. -/
theorem purchase_frame (env : Env) (db : Db) (productId quantity : Int)
    (hok : (postSales env db productId quantity).1.status = 201) :
    ∃ (sale : Sale) (before : List Product) (P : Product) (after : List Product),
      (postSales env db productId quantity).1.body =
          .purchase "Compra realizada con éxito" sale ∧
        (postSales env db productId quantity).2.salesCollection =
          db.salesCollection ++ [sale] ∧
        db.productsCollection = before ++ P :: after ∧ P.id = productId ∧
        (postSales env db productId quantity).2.productsCollection =
          before ++ { P with stock := P.stock.add (-quantity) } :: after := by
  rcases postSales_cases env db productId quantity with ⟨_, hne⟩ | ⟨P, hP, _, hcase⟩
  · exact absurd hok hne
  · rcases hcase with ⟨h500, _⟩ | ⟨hres, hdb⟩
    · rw [h500] at hok
      exact absurd hok (by decide)
    · obtain ⟨before, after, hps, _, hupd⟩ := updateOne_split (-quantity) hP
      refine ⟨⟨productId, quantity, env.now, P.price.mul quantity⟩, before, P, after,
        ?_, ?_, hps, (findOne_some hP).2, ?_⟩
      · rw [hres]
      · rw [hdb]
      · rw [hdb]
        simp only [hupd]

/-- C7 on a catalog of two products with a sale already stored: the sale of two
widgets is appended after the stored one, the lamp is as it was and the widget
has stock 3. -/
theorem purchase_frame_witness :
    (∃ (sale : Sale) (before : List Product) (P : Product) (after : List Product),
      (postSales (Env.quiet 9) twoShop 1 2).1.body =
          .purchase "Compra realizada con éxito" sale ∧
        (postSales (Env.quiet 9) twoShop 1 2).2.salesCollection =
          twoShop.salesCollection ++ [sale] ∧
        twoShop.productsCollection = before ++ P :: after ∧ P.id = 1 ∧
        (postSales (Env.quiet 9) twoShop 1 2).2.productsCollection =
          before ++ { P with stock := P.stock.add (-2) } :: after) ∧
      (postSales (Env.quiet 9) twoShop 1 2).2 =
        ⟨[⟨12, "Lamp", .ofInt 30, .ofInt 4⟩, ⟨1, "Widget", .ofInt 10, .ofInt 3⟩],
          [⟨12, 1, 3, .ofInt 30⟩, ⟨1, 2, 9, .ofInt 20⟩]⟩ :=
  ⟨purchase_frame (Env.quiet 9) twoShop 1 2 (by decide), by decide⟩

/-- C8, as the code has it: in a catalog whose prices and stocks are
non-negative, a purchase of a positive quantity that is answered with 201 stores
one sale, whose quantity is the positive one requested and whose total is the
price of the product found times the quantity, a non-negative number; the
product is the one of JavaScript numbers, which is the exact product whenever
that fits the 53 bits of a double. -/
theorem accepted_sale_well_formed (env : Env) (db : Db) (productId quantity : Int)
    (hprice : ∀ p ∈ db.productsCollection, p.price.nonneg = true)
    (_hstock : ∀ p ∈ db.productsCollection, p.stock.nonneg = true)
    (hok : (postSales env db productId quantity).1.status = 201)
    (hpos : 0 < quantity) :
    ∃ (P : Product) (sale : Sale),
      findOne db.productsCollection productId = some P ∧
        (postSales env db productId quantity).2.salesCollection =
          db.salesCollection ++ [sale] ∧
        sale.quantity = quantity ∧ 0 < sale.quantity ∧
        sale.total = P.price.mul quantity ∧ sale.total.nonneg = true ∧
        ∀ mant exp : Int, P.price = .fin mant exp → (mant * quantity).natAbs < 2 ^ 53 →
          -1074 ≤ exp → exp ≤ 971 →
          sale.total.toRat? = some ((mant : ℚ) * (2 : ℚ) ^ exp * quantity) := by
  rcases postSales_cases env db productId quantity with ⟨_, hne⟩ | ⟨P, hP, _, hcase⟩
  · exact absurd hok hne
  · rcases hcase with ⟨h500, _⟩ | ⟨_, hdb⟩
    · rw [h500] at hok
      exact absurd hok (by decide)
    · refine ⟨P, ⟨productId, quantity, env.now, P.price.mul quantity⟩, hP, ?_, rfl, hpos, rfl,
        ?_, ?_⟩
      · rw [hdb]
      · exact mul_nonneg_of_pos P.price quantity (hprice P (findOne_some hP).1) hpos
      · intro mant exp hfin hfit hlow hhigh
        show (P.price.mul quantity).toRat? = _
        rw [hfin]
        exact mul_exact mant exp quantity hfit hlow hhigh

/-- C8 on the end-to-end scenario, and on a product of price 0.1 bought three
times, whose total is the double 0.30000000000000004. -/
theorem accepted_sale_well_formed_witness :
    (∃ (P : Product) (sale : Sale),
      findOne widgetShop.productsCollection 1 = some P ∧
        (postSales (Env.quiet 0) widgetShop 1 2).2.salesCollection =
          widgetShop.salesCollection ++ [sale] ∧
        sale.quantity = 2 ∧ 0 < sale.quantity ∧
        sale.total = P.price.mul 2 ∧ sale.total.nonneg = true) ∧
      (postSales (Env.quiet 0) widgetShop 1 2).2.salesCollection = [⟨1, 2, 0, .ofInt 20⟩] ∧
      (∃ (P : Product) (sale : Sale),
        findOne pennyShop.productsCollection 7 = some P ∧
          (postSales (Env.quiet 0) pennyShop 7 3).2.salesCollection =
            pennyShop.salesCollection ++ [sale] ∧
          sale.quantity = 3 ∧ 0 < sale.quantity ∧
          sale.total = P.price.mul 3 ∧ sale.total.nonneg = true) ∧
      (postSales (Env.quiet 0) pennyShop 7 3).2.salesCollection =
        [⟨7, 3, 0, .fin 1351079888211149 (-52)⟩] :=
  have hwidget := accepted_sale_well_formed (Env.quiet 0) widgetShop 1 2 (by decide) (by decide)
    (by decide) (by decide)
  have hpenny := accepted_sale_well_formed (Env.quiet 0) pennyShop 7 3 (by decide) (by decide)
    (by decide) (by decide)
  ⟨hwidget.imp fun _ hP => hP.imp fun _ h => ⟨h.1, h.2.1, h.2.2.1, h.2.2.2.1, h.2.2.2.2.1,
      h.2.2.2.2.2.1⟩,
    by decide,
    hpenny.imp fun _ hP => hP.imp fun _ h => ⟨h.1, h.2.1, h.2.2.1, h.2.2.2.1, h.2.2.2.2.1,
      h.2.2.2.2.2.1⟩,
    by decide⟩

/-- C8 as stated fails: the handler accepts the quantity -1 for a product of
price 10 and stock 5, and stores a sale of quantity -1 and total -10. -/
theorem sale_quantity_counterexample :
    (∀ p ∈ widgetShop.productsCollection,
        p.price.nonneg = true ∧ p.stock.nonneg = true) ∧
      postSales (Env.quiet 0) widgetShop 1 (-1) =
        (⟨201, .purchase "Compra realizada con éxito" ⟨1, -1, 0, .ofInt (-10)⟩⟩,
          ⟨[⟨1, "Widget", .ofInt 10, .ofInt 6⟩], [⟨1, -1, 0, .ofInt (-10)⟩]⟩) ∧
      ¬ ∀ sale ∈ (postSales (Env.quiet 0) widgetShop 1 (-1)).2.salesCollection,
          0 < sale.quantity ∧ sale.total.nonneg = true := by
  decide

/-- C9: when the store answers, the sales route returns every sale record;
each of the three read routes leaves both collections as they are; hence two
calls of the sales route with only reads between them return the same response. -/
theorem reads_idempotent (db : Db) (env1 env2 : Env) (reads : List (Env × Request))
    (h1 : env1.findThrows = false) (h2 : env2.findThrows = false)
    (hreads : ∀ step ∈ reads, step.2.isRead = true) :
    handle env1 db .listSales = (⟨200, .sales db.salesCollection⟩, db) ∧
      (∀ (env : Env) (req : Request), req.isRead = true → (handle env db req).2 = db) ∧
      run (handle env1 db .listSales).2 reads = db ∧
      (handle env2 (run (handle env1 db .listSales).2 reads) .listSales).1 =
        (handle env1 db .listSales).1 := by
  have hfirst : handle env1 db .listSales = (⟨200, .sales db.salesCollection⟩, db) := by
    simp [handle, getSales, h1]
  have hrun : run db reads = db := by
    induction reads with
    | nil => rfl
    | cons step rest ih =>
      obtain ⟨env, req⟩ := step
      have hreq : req.isRead = true := hreads (env, req) (List.mem_cons_self _ _)
      show run (handle env db req).2 rest = db
      rw [handle_read env db req hreq]
      exact ih (fun st hst => hreads st (List.mem_cons_of_mem _ hst))
  refine ⟨hfirst, fun env req hreq => handle_read env db req hreq, ?_, ?_⟩
  · rw [hfirst]
    exact hrun
  · rw [hfirst]
    simp [hrun, handle, getSales, h2]

/-- C9 after one purchase, with three reads between the two calls. -/
theorem reads_idempotent_witness :
    handle (Env.quiet 1) (postSales (Env.quiet 0) widgetShop 1 2).2 .listSales =
        (⟨200, .sales [⟨1, 2, 0, .ofInt 20⟩]⟩, (postSales (Env.quiet 0) widgetShop 1 2).2) ∧
      (handle (Env.quiet 5)
          (run (handle (Env.quiet 1) (postSales (Env.quiet 0) widgetShop 1 2).2 .listSales).2
            [(Env.quiet 2, .listProducts (some "w")), (Env.quiet 3, .getProduct "1"),
              (Env.quiet 4, .listSales)]) .listSales).1 =
        (handle (Env.quiet 1) (postSales (Env.quiet 0) widgetShop 1 2).2 .listSales).1 :=
  have h := reads_idempotent (postSales (Env.quiet 0) widgetShop 1 2).2 (Env.quiet 1)
    (Env.quiet 5)
    [(Env.quiet 2, .listProducts (some "w")), (Env.quiet 3, .getProduct "1"),
      (Env.quiet 4, .listSales)] rfl rfl (by decide)
  ⟨h.1, h.2.2.2⟩

/-- C10: for a product P of a catalog with unique ids and a quantity within its
stock, when the sale is persisted and the stock update then rejects, the handler
answers 500, the new sale is in the sales collection and the catalog, the stock
of P included, is the one before the request. -/
theorem purchase_not_atomic (env : Env) (db : Db) (P : Product) (quantity : Int)
    (hfind : env.findOneThrows = false) (hins : env.insertOneThrows = false)
    (hupd : env.updateOneThrows = true)
    (hP : P ∈ db.productsCollection)
    (huniq : (db.productsCollection.map Product.id).Nodup)
    (hstock : P.stock.ge quantity = true) :
    postSales env db P.id quantity =
      (⟨500, .failure "Error al realizar la compra"⟩,
        { productsCollection := db.productsCollection,
          salesCollection :=
            db.salesCollection ++ [⟨P.id, quantity, env.now, P.price.mul quantity⟩] }) := by
  rw [postSales_of_found hfind (findOne_of_nodup huniq hP),
    lt_false_of_ge P.stock quantity hstock, hins, hupd]
  rfl

/-- C10 on the end-to-end scenario: the sale of 2 units is stored and the stock
stays 5. -/
theorem purchase_not_atomic_witness :
    postSales (Env.updateFails 7) widgetShop 1 2 =
      (⟨500, .failure "Error al realizar la compra"⟩,
        ⟨[⟨1, "Widget", .ofInt 10, .ofInt 5⟩], [⟨1, 2, 7, .ofInt 20⟩]⟩) :=
  purchase_not_atomic (Env.updateFails 7) widgetShop ⟨1, "Widget", .ofInt 10, .ofInt 5⟩ 2 rfl rfl rfl
    (by decide) (by decide) (by decide)

end Bazar
